import Mathlib

/-!
Verification development for the shaka-multi-layout-player repository.

The definitions below are shallow embeddings of the JavaScript source:
the HLS manifest parser (`parseManifestForLayouts` in src/src/App.js and
its variant in src/unnamed/part_002), the playback-session controller of
src/unnamed/part_001 (manifest version counter, switching flag, switch
timeout), the stall watchdog of src/unnamed/part_003, and the region hit
mapper (`handleVideoClick` in src/unnamed/part_002).  JavaScript numbers
that only ever hold integers are modelled as `Nat`; playback times, which
are fractional, are modelled as `ℚ`.
-/

namespace ShakaMultiLayout

/-! ### String-scanning primitives

These model the JavaScript string and RegExp operations used by the
manifest parser.  Each JS regular expression used by the source is simple
enough to implement directly as a first-match scanner over `List Char`.
-/

/-- ASCII whitespace recognised by JavaScript `String.prototype.trim`. -/
def isJsSpace (c : Char) : Bool :=
  c = ' ' || c = '\t' || c = '\n' || c = '\r' || c = '\x0b' || c = '\x0c'

/-- Model of JS `trim()` (the source lines only ever carry ASCII whitespace). -/
def jsTrim (s : List Char) : List Char :=
  ((s.dropWhile isJsSpace).reverse.dropWhile isJsSpace).reverse

/-- Model of JS `text.split('\n')`: keeps empty segments. -/
def splitLines : List Char → List (List Char)
  | [] => [[]]
  | c :: cs =>
    let r := splitLines cs
    if c = '\n' then [] :: r
    else
      match r with
      | h :: t => (c :: h) :: t
      | [] => [[c]]

/-- Digits-to-number, as JS `parseInt` on a digit-only capture. -/
def digitsToNat (ds : List Char) : Nat :=
  ds.foldl (fun n c => n * 10 + (c.toNat - 48)) 0

/-- Attribute marker strings from the source regexes. -/
def bandwidthAttr : List Char := ("BANDWIDTH=").toList

def resolutionAttr : List Char := ("RESOLUTION=").toList

def nameAttr : List Char := ("NAME=\"").toList

def videoAttr : List Char := ("VIDEO=\"").toList

def streamInfMark : List Char := ("#EXT-X-STREAM-INF:").toList

def layoutWord : List Char := ("Layout").toList

/-- Does the regex `key(\d+)` match at this position?  Returns the capture. -/
def matchKeyNumAt (key : List Char) (s : List Char) : Option Nat :=
  if key.isPrefixOf s then
    let ds := (s.drop key.length).takeWhile Char.isDigit
    if ds.isEmpty then none else some (digitsToNat ds)
  else none

/-- First match of `key(\d+)` anywhere in the line (JS `String.match`). -/
def findKeyNum (key : List Char) : List Char → Option Nat
  | [] => none
  | c :: cs =>
    match matchKeyNumAt key (c :: cs) with
    | some n => some n
    | none => findKeyNum key cs

/-- Does `RESOLUTION=(\d+x\d+)` match at this position?  Returns capture 1. -/
def matchResolutionAt (s : List Char) : Option (List Char) :=
  if resolutionAttr.isPrefixOf s then
    let rest := s.drop resolutionAttr.length
    let d1 := rest.takeWhile Char.isDigit
    match rest.dropWhile Char.isDigit with
    | x :: r2 =>
      if d1.isEmpty then none
      else if x = 'x' then
        let d2 := r2.takeWhile Char.isDigit
        if d2.isEmpty then none else some (d1 ++ 'x' :: d2)
      else none
    | [] => none
  else none

/-- First match of `RESOLUTION=(\d+x\d+)` in the line. -/
def findResolution : List Char → Option (List Char)
  | [] => none
  | c :: cs =>
    match matchResolutionAt (c :: cs) with
    | some v => some v
    | none => findResolution cs

/-- Does `attr([^"]+)"` match at this position (for `NAME="…"` / `VIDEO="…"`)? -/
def matchQuotedAt (attr : List Char) (s : List Char) : Option (List Char) :=
  if attr.isPrefixOf s then
    let rest := s.drop attr.length
    let v := rest.takeWhile (fun c => c ≠ '"')
    if v.isEmpty then none
    else
      match rest.dropWhile (fun c => c ≠ '"') with
      | _ :: _ => some v
      | [] => none
  else none

/-- First match of a quoted attribute anywhere in the line. -/
def findQuoted (attr : List Char) : List Char → Option (List Char)
  | [] => none
  | c :: cs =>
    match matchQuotedAt attr (c :: cs) with
    | some v => some v
    | none => findQuoted attr cs

/-- JS regex `/^([^\/]+)\//` on the URI line: the first path segment. -/
def firstPathSegment (s : List Char) : Option (List Char) :=
  let seg := s.takeWhile (fun c => c ≠ '/')
  if seg.isEmpty then none
  else
    match s.dropWhile (fun c => c ≠ '/') with
    | _ :: _ => some seg
    | [] => none

/-- Does `Layout\d+` match at this position?  Returns the whole match. -/
def matchLayoutNumAt (s : List Char) : Option (List Char) :=
  if layoutWord.isPrefixOf s then
    let ds := (s.drop layoutWord.length).takeWhile Char.isDigit
    if ds.isEmpty then none else some (layoutWord ++ ds)
  else none

/-- First match of `Layout\d+` anywhere in the URI line. -/
def findLayoutNum : List Char → Option (List Char)
  | [] => none
  | c :: cs =>
    match matchLayoutNumAt (c :: cs) with
    | some v => some v
    | none => findLayoutNum cs

/-! ### The manifest parser of src/src/App.js (`parseManifestForLayouts`) -/

/-- Layout-key resolution of src/src/App.js lines 140-153: explicit `NAME`
attribute, else `VIDEO` attribute, else first URI path segment, else a
`Layout<N>` token in the URI. -/
def resolveLayoutKey (line next : List Char) : Option (List Char) :=
  match findQuoted nameAttr line with
  | some v => some v
  | none =>
    match findQuoted videoAttr line with
    | some v => some v
    | none =>
      match firstPathSegment next with
      | some v => some v
      | none => findLayoutNum next

/-- Does the trimmed URI line start with a comment marker? -/
def startsWithHash : List Char → Bool
  | [] => false
  | c :: _ => c = '#'

/-- The fields the scan loop extracts from a stream-info/URI pair, or `none`
when the entry is dropped (App.js lines 131-155): missing/empty/comment URI
line, unresolvable layout key, or missing bandwidth or resolution. -/
def entryFields (line next : List Char) : Option (String × Nat × String) :=
  if next.isEmpty || startsWithHash next then none
  else
    match resolveLayoutKey line next, findKeyNum bandwidthAttr line, findResolution line with
    | some k, some bw, some r => some (String.mk k, bw, String.mk r)
    | _, _, _ => none

/-- One well-formed manifest entry, with the index of its stream-info line. -/
structure RawEntry where
  idx : Nat
  key : String
  bandwidth : Nat
  resolution : String
  infoLine : String
  urlLine : String
  deriving DecidableEq

/-- The scan loop of App.js lines 126-181 over the split lines, tracking the
line index `i`.  A stream-info line not immediately followed by a nonempty
non-comment line, or failing `entryFields`, contributes nothing. -/
def extractEntriesAux : Nat → List (List Char) → List RawEntry
  | _, [] => []
  | i, l :: rest =>
    let line := jsTrim l
    let tailEntries := extractEntriesAux (i + 1) rest
    if streamInfMark.isPrefixOf line then
      match rest with
      | [] => tailEntries
      | nl :: _ =>
        let next := jsTrim nl
        match entryFields line next with
        | some (k, bw, r) =>
          { idx := i, key := k, bandwidth := bw, resolution := r,
            infoLine := String.mk line, urlLine := String.mk next } :: tailEntries
        | none => tailEntries
    else tailEntries

/-- All well-formed entries of a manifest text, in scan order. -/
def extractEntries (text : String) : List RawEntry :=
  extractEntriesAux 0 (splitLines text.toList)

/-- One variant stream descriptor (App.js lines 168-173). -/
structure StreamDesc where
  bandwidth : Nat
  resolution : String
  streamInfoLine : String
  streamUrlLine : String
  deriving DecidableEq

/-- An aggregation bucket of the JS `Map` keyed by layout name. -/
structure LayoutAgg where
  name : String
  streams : List StreamDesc
  bestBandwidth : Nat
  bestResolution : String
  deriving DecidableEq

/-- Push one entry into a bucket and update the best-quality descriptor
(App.js lines 167-179: strictly-greater bandwidth wins). -/
def pushStream (a : LayoutAgg) (e : RawEntry) : LayoutAgg :=
  let a2 := { a with
    streams := a.streams ++
      [{ bandwidth := e.bandwidth, resolution := e.resolution,
         streamInfoLine := e.infoLine, streamUrlLine := e.urlLine }] }
  if a2.bestBandwidth < e.bandwidth then
    { a2 with bestBandwidth := e.bandwidth, bestResolution := e.resolution }
  else a2

/-- Insertion-ordered map update, as a JS `Map`: existing key updated in
place, new key appended (App.js lines 159-166). -/
def insertEntry : List LayoutAgg → RawEntry → List LayoutAgg
  | [], e => [pushStream { name := e.key, streams := [], bestBandwidth := 0, bestResolution := "" } e]
  | a :: rest, e =>
    if a.name = e.key then pushStream a e :: rest
    else a :: insertEntry rest e

/-- `layoutMap` after processing all entries, in insertion order. -/
def buildLayoutMap (es : List RawEntry) : List LayoutAgg :=
  es.foldl insertEntry []

/-- A parsed Layout record (App.js lines 197-204). -/
structure Layout where
  name : String
  displayName : String
  masterUrl : String
  streams : List StreamDesc
  bandwidth : Nat
  resolution : String
  deriving DecidableEq

/-- `manifestUrl.substring(0, manifestUrl.lastIndexOf('/') + 1)`: everything
up to and including the last slash; empty when there is no slash. -/
def baseUrlOf (url : String) : String :=
  String.mk ((url.toList.reverse.dropWhile (fun c => c ≠ '/')).reverse)

/-- The fixed per-layout sub-path suffix of App.js line 189. -/
def masterSuffix : String := "/master.m3u8"

/-- App.js lines 187-205: a bucket becomes a Layout record with a derived
master URL `baseUrl + name + "/master.m3u8"`. -/
def mkLayout (baseUrl : String) (a : LayoutAgg) : Layout :=
  { name := a.name, displayName := a.name,
    masterUrl := baseUrl ++ a.name ++ masterSuffix,
    streams := a.streams, bandwidth := a.bestBandwidth, resolution := a.bestResolution }

/-! ### The sort comparator

App.js line 208 sorts with `a.name.localeCompare(b.name)`.  The collation
`localeCompare` implements is supplied by the host environment (ICU, and
locale-dependent); it is not code of this repository.  The parser is
therefore embedded twice: `parseManifestForLayoutsWith` abstracts the
collation as a parameter (any total, transitive comparison), and
`parseManifestForLayouts` instantiates it at the sample collation
`localeLe` for concrete evaluation.  `localeLe` agrees with ICU root
collation on names made only of ASCII letters — case-folded primary
order, lowercase first on case-only ties — which covers every name
appearing in the concrete examples below; it is not claimed to match ICU
on digits or punctuation, which ICU orders differently from code units.
Code-unit (byte) order itself is `bytesLtB`, defined as an executable
function so that concrete manifests evaluate inside the kernel. -/

/-- Strict lexicographic code-point order on character lists. -/
def charsLtB : List Char → List Char → Bool
  | _ :: _, [] => false
  | [], _ :: _ => true
  | [], [] => false
  | a :: as, b :: bs =>
    if a < b then true else if b < a then false else charsLtB as bs

/-- Strict code-unit order on strings (the JS `<` operator on strings). -/
def bytesLtB (s t : String) : Bool := charsLtB s.toList t.toList

theorem charsLtB_irrefl : ∀ s, charsLtB s s = false
  | [] => rfl
  | a :: as => by
    simp only [charsLtB, lt_irrefl a, if_false]
    exact charsLtB_irrefl as

theorem charsLtB_trans : ∀ {s t u : List Char},
    charsLtB s t = true → charsLtB t u = true → charsLtB s u = true
  | _ :: _, [], _, h1, _ => by simp [charsLtB] at h1
  | [], _ :: _, [], _, h2 => by simp [charsLtB] at h2
  | [], [], _, h1, _ => by simp [charsLtB] at h1
  | [], _ :: _, _ :: _, _, _ => by simp [charsLtB]
  | a :: as, b :: bs, [], _, h2 => by simp [charsLtB] at h2
  | a :: as, b :: bs, c :: cs, h1, h2 => by
    simp only [charsLtB] at h1 h2 ⊢
    rcases lt_trichotomy a b with hab | hab | hab
    · rcases lt_trichotomy b c with hbc | hbc | hbc
      · simp [hab.trans hbc]
      · simp [hbc ▸ hab]
      · simp only [if_neg (lt_asymm hbc), if_pos hbc] at h2
        cases h2
    · subst hab
      rcases lt_trichotomy a c with hac | hac | hac
      · simp [hac]
      · subst hac
        simp only [lt_irrefl, if_false] at h1 h2 ⊢
        exact charsLtB_trans h1 h2
      · simp only [if_neg (lt_asymm hac), if_pos hac] at h2
        cases h2
    · simp only [if_neg (lt_asymm hab), if_pos hab] at h1
      cases h1

theorem charsLtB_eq_of_not_lt : ∀ {s t : List Char},
    charsLtB s t = false → charsLtB t s = false → s = t
  | [], [], _, _ => rfl
  | _ :: _, [], _, h2 => by simp [charsLtB] at h2
  | [], _ :: _, h1, _ => by simp [charsLtB] at h1
  | a :: as, b :: bs, h1, h2 => by
    simp only [charsLtB] at h1 h2
    rcases lt_trichotomy a b with hab | hab | hab
    · simp [hab] at h1
    · subst hab
      simp only [lt_irrefl, if_false] at h1 h2
      exact congrArg (a :: ·) (charsLtB_eq_of_not_lt h1 h2)
    · simp [hab] at h2

theorem strings_eq_of_not_lt {s t : String} (h1 : bytesLtB s t = false)
    (h2 : bytesLtB t s = false) : s = t := by
  cases s
  cases t
  exact congrArg String.mk (charsLtB_eq_of_not_lt h1 h2)

/-- ASCII lowercase folding of a string. -/
def lowerStr (s : String) : String := String.mk (s.toList.map Char.toLower)

/-- A sample collation for instantiating the abstract `localeCompare`
parameter: primary case-folded order, case-only ties put lowercase first
(reverse code-unit order on the originals).  On letters-only ASCII names
this coincides with ICU root collation. -/
def localeLe (s t : String) : Prop :=
  bytesLtB (lowerStr s) (lowerStr t) = true ∨
    (lowerStr s = lowerStr t ∧ bytesLtB s t = false)

instance : DecidableRel localeLe := fun s t =>
  inferInstanceAs (Decidable (bytesLtB (lowerStr s) (lowerStr t) = true ∨
    (lowerStr s = lowerStr t ∧ bytesLtB s t = false)))

/-- The sample comparator applied to Layout records (App.js line 208). -/
def layoutLe (a b : Layout) : Prop := localeLe a.name b.name

instance : DecidableRel layoutLe := fun a b =>
  inferInstanceAs (Decidable (localeLe a.name b.name))

theorem localeLe_total (s t : String) : localeLe s t ∨ localeLe t s := by
  cases h : bytesLtB (lowerStr s) (lowerStr t)
  · cases h2 : bytesLtB (lowerStr t) (lowerStr s)
    · have e := strings_eq_of_not_lt h h2
      cases h3 : bytesLtB s t
      · exact Or.inl (Or.inr ⟨e, h3⟩)
      · cases h4 : bytesLtB t s
        · exact Or.inr (Or.inr ⟨e.symm, h4⟩)
        · have h5 := charsLtB_trans h3 h4
          rw [charsLtB_irrefl] at h5
          exact Bool.noConfusion h5
    · exact Or.inr (Or.inl h2)
  · exact Or.inl (Or.inl h)

theorem localeLe_trans {s t u : String} (h1 : localeLe s t) (h2 : localeLe t u) :
    localeLe s u := by
  rcases h1 with h1 | ⟨e1, b1⟩
  · rcases h2 with h2 | ⟨e2, _⟩
    · exact Or.inl (charsLtB_trans h1 h2)
    · exact Or.inl (e2 ▸ h1)
  · rcases h2 with h2 | ⟨e2, b2⟩
    · exact Or.inl (e1 ▸ h2)
    · refine Or.inr ⟨e1.trans e2, ?_⟩
      cases b3 : bytesLtB s u
      · rfl
      · cases b4 : bytesLtB u t
        · have e3 := strings_eq_of_not_lt b2 b4
          subst e3
          rw [b1] at b3
          exact Bool.noConfusion b3
        · have h5 := charsLtB_trans b3 b4
          rw [show charsLtB s.toList t.toList = bytesLtB s t from rfl, b1] at h5
          exact Bool.noConfusion h5

instance : IsTotal Layout layoutLe := ⟨fun a b => localeLe_total a.name b.name⟩

instance : IsTrans Layout layoutLe := ⟨fun _ _ _ h1 h2 => localeLe_trans h1 h2⟩

instance : IsTotal String localeLe := ⟨localeLe_total⟩

instance : IsTrans String localeLe := ⟨fun _ _ _ => localeLe_trans⟩

/-- An arbitrary host collation, lifted to Layout records by name. -/
def layoutLeOf (le : String → String → Prop) (a b : Layout) : Prop := le a.name b.name

instance (le : String → String → Prop) [DecidableRel le] : DecidableRel (layoutLeOf le) :=
  fun a b => inferInstanceAs (Decidable (le a.name b.name))

instance (le : String → String → Prop) [ht : IsTotal String le] :
    IsTotal Layout (layoutLeOf le) :=
  ⟨fun a b => ht.total a.name b.name⟩

instance (le : String → String → Prop) [ht : IsTrans String le] :
    IsTrans Layout (layoutLeOf le) :=
  ⟨fun a b c h1 h2 => ht.trans a.name b.name c.name h1 h2⟩

/-- The full manifest parser of src/src/App.js lines 114-218 (its pure
part: manifest text and URL to the sorted Layout list), with the host's
`localeCompare` collation `le` — external to the repository — abstracted
as a parameter. -/
def parseManifestForLayoutsWith (le : String → String → Prop) [DecidableRel le]
    (manifestText manifestUrl : String) : List Layout :=
  let baseUrl := baseUrlOf manifestUrl
  List.insertionSort (layoutLeOf le)
    ((buildLayoutMap (extractEntries manifestText)).map (mkLayout baseUrl))

/-- The parser instantiated at the sample collation, for concrete
evaluation in the examples. -/
def parseManifestForLayouts (manifestText manifestUrl : String) : List Layout :=
  let baseUrl := baseUrlOf manifestUrl
  List.insertionSort layoutLe ((buildLayoutMap (extractEntries manifestText)).map (mkLayout baseUrl))

theorem parseManifestForLayouts_eq_with (text url : String) :
    parseManifestForLayouts text url = parseManifestForLayoutsWith localeLe text url := rfl

/-- The trimmed `i`-th manifest line, as the scan loop sees it. -/
def manifestLine (text : String) (i : Nat) : List Char :=
  jsTrim ((splitLines text.toList).getD i [])

/-! ### Structural lemmas about the parser -/

theorem pushStream_name (a : LayoutAgg) (e : RawEntry) : (pushStream a e).name = a.name := by
  by_cases h : a.bestBandwidth < e.bandwidth <;> simp [pushStream, h]

theorem pushStream_streams_ne_nil (a : LayoutAgg) (e : RawEntry) :
    (pushStream a e).streams ≠ [] := by
  by_cases h : a.bestBandwidth < e.bandwidth <;> simp [pushStream, h]

theorem mkLayout_name (b : String) (a : LayoutAgg) : (mkLayout b a).name = a.name := rfl

theorem keysOf_insertEntry (e : RawEntry) : ∀ m : List LayoutAgg,
    (insertEntry m e).map LayoutAgg.name =
      if e.key ∈ m.map LayoutAgg.name then m.map LayoutAgg.name
      else m.map LayoutAgg.name ++ [e.key]
  | [] => by simp [insertEntry, pushStream_name]
  | a :: rest => by
    by_cases h : a.name = e.key
    · simp [insertEntry, h, pushStream_name]
    · have ih := keysOf_insertEntry e rest
      by_cases h2 : e.key ∈ rest.map LayoutAgg.name
      · simp only [insertEntry, if_neg h, List.map_cons, ih, if_pos h2]
        simp [h2]
      · have h3 : e.key ∉ (a :: rest).map LayoutAgg.name := by
          simp only [List.map_cons, List.mem_cons]
          rintro (h4 | h4)
          · exact h (h4.symm)
          · exact h2 h4
        simp only [List.map_cons] at h3
        simp only [insertEntry, if_neg h, List.map_cons, ih, if_neg h2, if_neg h3]
        simp

theorem mem_keysOf_insertEntry {x : String} (e : RawEntry) (m : List LayoutAgg) :
    x ∈ (insertEntry m e).map LayoutAgg.name ↔ x ∈ m.map LayoutAgg.name ∨ x = e.key := by
  rw [keysOf_insertEntry]
  split
  · rename_i h
    constructor
    · exact Or.inl
    · rintro (h2 | h2)
      · exact h2
      · exact h2 ▸ h
  · simp

theorem nodup_keysOf_insertEntry (e : RawEntry) (m : List LayoutAgg)
    (h : (m.map LayoutAgg.name).Nodup) : ((insertEntry m e).map LayoutAgg.name).Nodup := by
  rw [keysOf_insertEntry]
  split
  · exact h
  · rename_i h2
    simp [List.nodup_append, h, h2]

theorem streams_ne_nil_insertEntry (e : RawEntry) : ∀ m : List LayoutAgg,
    (∀ a ∈ m, a.streams ≠ []) → ∀ a ∈ insertEntry m e, a.streams ≠ []
  | [], _, a, ha => by
    simp only [insertEntry, List.mem_singleton] at ha
    exact ha ▸ pushStream_streams_ne_nil _ _
  | b :: rest, h, a, ha => by
    simp only [insertEntry] at ha
    split at ha
    · rcases List.mem_cons.mp ha with h2 | h2
      · exact h2 ▸ pushStream_streams_ne_nil _ _
      · exact h a (List.mem_cons_of_mem _ h2)
    · rcases List.mem_cons.mp ha with h2 | h2
      · exact h2 ▸ h b (List.mem_cons_self _ _)
      · exact streams_ne_nil_insertEntry e rest
          (fun c hc => h c (List.mem_cons_of_mem _ hc)) a h2

theorem mem_keysOf_foldl {x : String} : ∀ (es : List RawEntry) (m : List LayoutAgg),
    x ∈ (es.foldl insertEntry m).map LayoutAgg.name ↔
      x ∈ m.map LayoutAgg.name ∨ x ∈ es.map RawEntry.key
  | [], m => by simp
  | e :: es, m => by
    rw [List.foldl_cons, mem_keysOf_foldl es (insertEntry m e), mem_keysOf_insertEntry]
    simp only [List.map_cons, List.mem_cons]
    tauto

theorem nodup_keysOf_foldl : ∀ (es : List RawEntry) (m : List LayoutAgg),
    (m.map LayoutAgg.name).Nodup → ((es.foldl insertEntry m).map LayoutAgg.name).Nodup
  | [], _, h => h
  | e :: es, m, h =>
    nodup_keysOf_foldl es (insertEntry m e) (nodup_keysOf_insertEntry e m h)

theorem streams_ne_nil_foldl : ∀ (es : List RawEntry) (m : List LayoutAgg),
    (∀ a ∈ m, a.streams ≠ []) → ∀ a ∈ es.foldl insertEntry m, a.streams ≠ []
  | [], _, h => h
  | e :: es, m, h =>
    streams_ne_nil_foldl es (insertEntry m e) (streams_ne_nil_insertEntry e m h)

theorem buildLayoutMap_keys_nodup (es : List RawEntry) :
    ((buildLayoutMap es).map LayoutAgg.name).Nodup :=
  nodup_keysOf_foldl es [] (by simp)

theorem buildLayoutMap_length (es : List RawEntry) :
    (buildLayoutMap es).length = (es.map RawEntry.key).dedup.length := by
  have h1 : ((buildLayoutMap es).map LayoutAgg.name).Nodup := buildLayoutMap_keys_nodup es
  have h2 : ((es.map RawEntry.key).dedup).Nodup := List.nodup_dedup _
  have hm : ∀ x, x ∈ (buildLayoutMap es).map LayoutAgg.name ↔
      x ∈ (es.map RawEntry.key).dedup := by
    intro x
    rw [List.mem_dedup, buildLayoutMap, mem_keysOf_foldl]
    simp
  have hp := (List.perm_ext_iff_of_nodup h1 h2).mpr hm
  have := hp.length_eq
  simpa using this

theorem pairwise_and_of {α : Type _} {R S : α → α → Prop} :
    ∀ {l : List α}, l.Pairwise R → l.Pairwise S → l.Pairwise fun a b => R a b ∧ S a b
  | [], _, _ => List.Pairwise.nil
  | _ :: _, List.Pairwise.cons h1 t1, List.Pairwise.cons h2 t2 =>
    List.Pairwise.cons (fun b hb => ⟨h1 b hb, h2 b hb⟩) (pairwise_and_of t1 t2)

theorem parse_names_nodup (le : String → String → Prop) [DecidableRel le] (text url : String) :
    ((parseManifestForLayoutsWith le text url).map Layout.name).Nodup := by
  have hperm : List.Perm (parseManifestForLayoutsWith le text url)
      ((buildLayoutMap (extractEntries text)).map (mkLayout (baseUrlOf url))) :=
    List.perm_insertionSort _ _
  have hmap := hperm.map Layout.name
  have heq : ((buildLayoutMap (extractEntries text)).map
      (mkLayout (baseUrlOf url))).map Layout.name =
      (buildLayoutMap (extractEntries text)).map LayoutAgg.name := by
    rw [List.map_map]
    rfl
  rw [heq] at hmap
  exact hmap.nodup_iff.mpr (buildLayoutMap_keys_nodup _)

/-! ### C1: layout count, ordering, and nonempty streams -/

/-- C1 (claim as stated is refuted below; this is the amended form).  For
every manifest text and base URL, and every total, transitive collation
`le` — the host's `localeCompare` supplies such a collation; it is
locale-defined (ICU) and external to the repository — the parser returns
exactly K Layout records where K is the number of distinct layout keys
among the well-formed stream-info/URI pairs; the records are pairwise
distinct and ascending by name under `le`; and each record carries at
least one stream descriptor.  The sort order is whatever `localeCompare`
implements, not case-sensitive byte order (refuted below at names "a" and
"B", on which every ICU collation agrees with the sample collation). -/
theorem C1_parse_count_sorted_nonempty (le : String → String → Prop) [DecidableRel le]
    [IsTotal String le] [IsTrans String le] (text url : String) :
    (parseManifestForLayoutsWith le text url).length =
        ((extractEntries text).map RawEntry.key).dedup.length
      ∧ List.Pairwise (fun a b => le a b ∧ a ≠ b)
          ((parseManifestForLayoutsWith le text url).map Layout.name)
      ∧ ∀ l ∈ parseManifestForLayoutsWith le text url, l.streams ≠ [] := by
  refine ⟨?_, ?_, ?_⟩
  · have hperm : List.Perm (parseManifestForLayoutsWith le text url)
        ((buildLayoutMap (extractEntries text)).map (mkLayout (baseUrlOf url))) :=
      List.perm_insertionSort _ _
    rw [hperm.length_eq, List.length_map, buildLayoutMap_length]
  · have hsorted : List.Sorted (layoutLeOf le) (parseManifestForLayoutsWith le text url) :=
      List.sorted_insertionSort (layoutLeOf le) _
    have hle : List.Pairwise (fun a b => le a b)
        ((parseManifestForLayoutsWith le text url).map Layout.name) :=
      List.pairwise_map.mpr (hsorted.imp (fun h => h))
    have hne : List.Pairwise (fun a b => a ≠ b)
        ((parseManifestForLayoutsWith le text url).map Layout.name) :=
      parse_names_nodup le text url
    exact (pairwise_and_of hle hne).imp (fun h => h)
  · intro l hl
    have hmem : l ∈ (buildLayoutMap (extractEntries text)).map (mkLayout (baseUrlOf url)) :=
      ((List.perm_insertionSort _ _).mem_iff).mp hl
    rcases List.mem_map.mp hmem with ⟨a, ha, rfl⟩
    have := streams_ne_nil_foldl (extractEntries text) [] (by simp) a ha
    simpa [mkLayout] using this

/-- A two-layout manifest whose names differ only in letter and case. -/
def mixedCaseManifest : String :=
  "#EXT-X-STREAM-INF:BANDWIDTH=1000,RESOLUTION=640x360,NAME=\"a\"" ++ "\n" ++
  "a/index.m3u8" ++ "\n" ++
  "#EXT-X-STREAM-INF:BANDWIDTH=2000,RESOLUTION=1280x720,NAME=\"B\"" ++ "\n" ++
  "B/index.m3u8"

/-- The manifest URL used for the concrete examples. -/
def exampleUrl : String := "https://example.com/hls/master.m3u8"

/-- C1 counterexample: on the letters-only names "a" and "B", every ICU
collation (hence `localeCompare` in any locale) orders "a" first, by the
primary letter weights a < b; the sample collation `localeLe` reproduces
exactly that, so the parser output is `["a", "B"]` — not ascending in
case-sensitive byte order, since `"B"` precedes `"a"` in code units.
`fun s t => bytesLtB t s = false` is non-strict byte order `s ≤ t`. -/
theorem C1_counterexample :
    (parseManifestForLayouts mixedCaseManifest exampleUrl).map Layout.name = ["a", "B"]
      ∧ ¬ List.Sorted (fun s t => bytesLtB t s = false)
          ((parseManifestForLayouts mixedCaseManifest exampleUrl).map Layout.name) := by
  constructor
  · decide
  · decide

/-- The two-rung single-layout manifest from the specification examples. -/
def studioManifest : String :=
  "#EXT-X-STREAM-INF:BANDWIDTH=800000,RESOLUTION=640x360,NAME=\"studio\"" ++ "\n" ++
  "studio/low.m3u8" ++ "\n" ++
  "#EXT-X-STREAM-INF:BANDWIDTH=2000000,RESOLUTION=1920x1080,NAME=\"studio\"" ++ "\n" ++
  "studio/high.m3u8"

/-- A default used only to take heads of concrete nonempty lists. -/
def dummyLayout : Layout :=
  { name := "", displayName := "", masterUrl := "", streams := [],
    bandwidth := 0, resolution := "" }

theorem C1_parse_count_sorted_nonempty_witness :
    (parseManifestForLayoutsWith localeLe studioManifest exampleUrl).length =
        ((extractEntries studioManifest).map RawEntry.key).dedup.length
      ∧ ((parseManifestForLayoutsWith localeLe studioManifest exampleUrl).headD
          dummyLayout).streams ≠ [] :=
  ⟨(C1_parse_count_sorted_nonempty localeLe studioManifest exampleUrl).1,
    (C1_parse_count_sorted_nonempty localeLe studioManifest exampleUrl).2.2
      ((parseManifestForLayoutsWith localeLe studioManifest exampleUrl).headD dummyLayout)
      (by decide)⟩

/-! ### C9: the master-URL formula -/

/-- C9: every Layout returned by the parser has
`masterUrl = baseUrl ++ layoutKey ++ "/master.m3u8"`, where the base URL is
the manifest URL truncated just after its last slash — independent of the
URI lines parsed from the manifest (App.js lines 183-189). -/
theorem C9_masterUrl_formula (text url : String) :
    ∀ l ∈ parseManifestForLayouts text url,
      l.masterUrl = baseUrlOf url ++ l.name ++ masterSuffix := by
  intro l hl
  have hmem := ((List.perm_insertionSort layoutLe _).mem_iff).mp hl
  rcases List.mem_map.mp hmem with ⟨a, _, rfl⟩
  rfl

theorem C9_masterUrl_formula_witness :
    ((parseManifestForLayouts studioManifest exampleUrl).headD dummyLayout).masterUrl =
      baseUrlOf exampleUrl ++
        ((parseManifestForLayouts studioManifest exampleUrl).headD dummyLayout).name ++
        masterSuffix :=
  C9_masterUrl_formula studioManifest exampleUrl
    ((parseManifestForLayouts studioManifest exampleUrl).headD dummyLayout) (by decide)

/-! ### C7: malformed entries are dropped silently -/

theorem entryFields_eq_some {line next : List Char} {k : String} {bw : Nat} {r : String}
    (h : entryFields line next = some (k, bw, r)) :
    next.isEmpty = false ∧ startsWithHash next = false ∧
      (∃ kl, resolveLayoutKey line next = some kl) ∧
      findKeyNum bandwidthAttr line = some bw ∧
      (∃ rl, findResolution line = some rl) := by
  unfold entryFields at h
  by_cases h1 : next.isEmpty || startsWithHash next
  · rw [if_pos h1] at h
    cases h
  · rw [if_neg h1] at h
    simp only [Bool.or_eq_true, not_or, Bool.not_eq_true] at h1
    obtain ⟨he, hh⟩ := h1
    split at h
    · rename_i kl bwv rl hkl hbw hrl
      cases h
      exact ⟨he, hh, ⟨kl, hkl⟩, hbw, ⟨rl, hrl⟩⟩
    · cases h

/-- Every entry emitted by the scan loop originates at a stream-info line
whose pair extraction succeeded, with the URI line present. -/
theorem extractEntriesAux_spec : ∀ (ls : List (List Char)) (i0 : Nat) (e : RawEntry),
    e ∈ extractEntriesAux i0 ls →
    ∃ j, e.idx = i0 + j ∧ j + 1 < ls.length ∧
      streamInfMark.isPrefixOf (jsTrim (ls.getD j [])) = true ∧
      entryFields (jsTrim (ls.getD j [])) (jsTrim (ls.getD (j + 1) [])) =
        some (e.key, e.bandwidth, e.resolution)
  | [], _, e, he => absurd he (List.not_mem_nil e)
  | l :: rest, i0, e, he => by
    by_cases hsi : streamInfMark.isPrefixOf (jsTrim l)
    · cases rest with
      | nil =>
        simp [extractEntriesAux, hsi] at he
      | cons nl rest2 =>
        cases hef : entryFields (jsTrim l) (jsTrim nl) with
        | some tri =>
          obtain ⟨k, bw, r⟩ := tri
          have he2 : e ∈ (⟨i0, k, bw, r, String.mk (jsTrim l), String.mk (jsTrim nl)⟩ : RawEntry) ::
              extractEntriesAux (i0 + 1) (nl :: rest2) := by
            simpa [extractEntriesAux, hsi, hef] using he
          rcases List.mem_cons.mp he2 with h2 | h2
          · subst h2
            exact ⟨0, by simp, by simp, by simpa using hsi, by simpa using hef⟩
          · obtain ⟨j, hj, hlen, hpre, hfields⟩ :=
              extractEntriesAux_spec (nl :: rest2) (i0 + 1) e h2
            exact ⟨j + 1, by omega, by simpa using Nat.succ_lt_succ hlen, hpre, hfields⟩
        | none =>
          have he2 : e ∈ extractEntriesAux (i0 + 1) (nl :: rest2) := by
            simpa [extractEntriesAux, hsi, hef] using he
          obtain ⟨j, hj, hlen, hpre, hfields⟩ :=
            extractEntriesAux_spec (nl :: rest2) (i0 + 1) e he2
          exact ⟨j + 1, by omega, by simpa using Nat.succ_lt_succ hlen, hpre, hfields⟩
    · have he2 : e ∈ extractEntriesAux (i0 + 1) rest := by
        simpa [extractEntriesAux, hsi] using he
      obtain ⟨j, hj, hlen, hpre, hfields⟩ := extractEntriesAux_spec rest (i0 + 1) e he2
      refine ⟨j + 1, by omega, by simpa using Nat.succ_lt_succ hlen, hpre, hfields⟩

/-- A manifest whose first entry lacks `BANDWIDTH=` and is dropped, while
the entry at line 2 is well formed. -/
def malformedMixManifest : String :=
  "#EXT-X-STREAM-INF:RESOLUTION=640x360,NAME=\"x\"" ++ "\n" ++
  "x/index.m3u8" ++ "\n" ++
  "#EXT-X-STREAM-INF:BANDWIDTH=500,RESOLUTION=640x360,NAME=\"y\"" ++ "\n" ++
  "y/index.m3u8"

/-- A default used only to take heads of concrete nonempty entry lists. -/
def dummyRawEntry : RawEntry :=
  { idx := 0, key := "", bandwidth := 0, resolution := "", infoLine := "", urlLine := "" }

/-! ### The manifest parser variant of src/unnamed/part_002 and the fetch layer

part_002's `parseManifestForLayouts` (lines 35-93) differs from App.js in
two ways relevant to the claims: it checks `response.ok` and throws on a
non-success HTTP status, and its layout-key fallback takes the
second-to-last URI path segment.  App.js performs no `response.ok` check:
any response body is parsed. -/

/-- Model of JS `s.split(sep)` for a single-character separator. -/
def splitOnSep (sep : Char) : List Char → List (List Char)
  | [] => [[]]
  | c :: cs =>
    let r := splitOnSep sep cs
    if c = sep then [] :: r
    else
      match r with
      | h :: t => (c :: h) :: t
      | [] => [[c]]

/-- part_002 lines 59-65: name attribute, else video attribute, else the
second-to-last segment of the URI split on slashes (when there are at
least two segments). -/
def resolveLayoutKeyP2 (line next : List Char) : Option (List Char) :=
  match findQuoted nameAttr line with
  | some v => some v
  | none =>
    match findQuoted videoAttr line with
    | some v => some v
    | none =>
      let parts := splitOnSep '/' next
      if 1 < parts.length then some (parts.getD (parts.length - 2) []) else none

/-- part_002 lines 51-75: the guard `layoutName && bandwidthMatch &&
resolutionMatch`; an empty path segment is falsy in JS and drops the
entry. -/
def entryFieldsP2 (line next : List Char) : Option (String × Nat × String) :=
  if next.isEmpty || startsWithHash next then none
  else
    match resolveLayoutKeyP2 line next, findKeyNum bandwidthAttr line, findResolution line with
    | some k, some bw, some r =>
      if k.isEmpty then none else some (String.mk k, bw, String.mk r)
    | _, _, _ => none

/-- One well-formed part_002 entry, with the index of its stream-info
line (part_002 keeps no line references in its stream records). -/
structure RawEntryP2 where
  idx : Nat
  key : String
  bandwidth : Nat
  resolution : String
  deriving DecidableEq

/-- The part_002 scan loop (lines 48-77), tracking the line index. -/
def extractEntriesP2Aux : Nat → List (List Char) → List RawEntryP2
  | _, [] => []
  | i, l :: rest =>
    let line := jsTrim l
    let tailEntries := extractEntriesP2Aux (i + 1) rest
    if streamInfMark.isPrefixOf line then
      match rest with
      | [] => tailEntries
      | nl :: _ =>
        match entryFieldsP2 line (jsTrim nl) with
        | some (k, bw, r) =>
          { idx := i, key := k, bandwidth := bw, resolution := r } :: tailEntries
        | none => tailEntries
    else tailEntries

/-- All well-formed part_002 entries of a manifest text, in scan order. -/
def extractEntriesP2 (text : String) : List RawEntryP2 :=
  extractEntriesP2Aux 0 (splitLines text.toList)

/-- One stream descriptor of part_002 (lines 71-74). -/
structure StreamDescP2 where
  bandwidth : Nat
  resolution : String
  deriving DecidableEq

/-- A part_002 aggregation bucket. -/
structure LayoutAggP2 where
  name : String
  streams : List StreamDescP2
  deriving DecidableEq

/-- A part_002 Layout record (lines 80-84). -/
structure LayoutP2 where
  name : String
  displayName : String
  masterUrl : String
  deriving DecidableEq

/-- part_002 lines 67-75: JS `Map` update. -/
def insertEntryP2 : List LayoutAggP2 → RawEntryP2 → List LayoutAggP2
  | [], e => [{ name := e.key, streams := [{ bandwidth := e.bandwidth, resolution := e.resolution }] }]
  | a :: rest, e =>
    if a.name = e.key then
      { a with streams := a.streams ++ [{ bandwidth := e.bandwidth, resolution := e.resolution }] } :: rest
    else a :: insertEntryP2 rest e

/-- The part_002 comparator (line 86, again `localeCompare` on names). -/
def layoutLeP2 (a b : LayoutP2) : Prop := localeLe a.name b.name

instance : DecidableRel layoutLeP2 := fun a b =>
  inferInstanceAs (Decidable (localeLe a.name b.name))

/-- The pure part of part_002's parser: manifest text and URL to the
sorted LayoutP2 list (lines 45-88). -/
def parseManifestTextP2 (manifestText manifestUrl : String) : List LayoutP2 :=
  let baseUrl := baseUrlOf manifestUrl
  List.insertionSort layoutLeP2
    (((extractEntriesP2 manifestText).foldl insertEntryP2 []).map
      (fun a => { name := a.name, displayName := a.name,
                  masterUrl := baseUrl ++ a.name ++ masterSuffix }))

/-! ### C7: malformed entries are dropped silently, in both iterations -/

theorem entryFieldsP2_eq_some {line next : List Char} {k : String} {bw : Nat} {r : String}
    (h : entryFieldsP2 line next = some (k, bw, r)) :
    next.isEmpty = false ∧ startsWithHash next = false ∧
      (∃ kl, resolveLayoutKeyP2 line next = some kl ∧ kl ≠ []) ∧
      findKeyNum bandwidthAttr line = some bw ∧
      (∃ rl, findResolution line = some rl) := by
  unfold entryFieldsP2 at h
  by_cases h1 : next.isEmpty || startsWithHash next
  · rw [if_pos h1] at h
    cases h
  · rw [if_neg h1] at h
    simp only [Bool.or_eq_true, not_or, Bool.not_eq_true] at h1
    obtain ⟨he, hh⟩ := h1
    split at h
    · rename_i kl bwv rl hkl hbw hrl
      by_cases hk : kl.isEmpty
      · rw [if_pos hk] at h
        cases h
      · rw [if_neg hk] at h
        cases h
        refine ⟨he, hh, ⟨kl, hkl, ?_⟩, hbw, ⟨rl, hrl⟩⟩
        simpa using hk
    · cases h

/-- Every part_002 entry originates at a stream-info line whose pair
extraction succeeded, with the URI line present. -/
theorem extractEntriesP2Aux_spec : ∀ (ls : List (List Char)) (i0 : Nat) (e : RawEntryP2),
    e ∈ extractEntriesP2Aux i0 ls →
    ∃ j, e.idx = i0 + j ∧ j + 1 < ls.length ∧
      streamInfMark.isPrefixOf (jsTrim (ls.getD j [])) = true ∧
      entryFieldsP2 (jsTrim (ls.getD j [])) (jsTrim (ls.getD (j + 1) [])) =
        some (e.key, e.bandwidth, e.resolution)
  | [], _, e, he => absurd he (List.not_mem_nil e)
  | l :: rest, i0, e, he => by
    by_cases hsi : streamInfMark.isPrefixOf (jsTrim l)
    · cases rest with
      | nil =>
        simp [extractEntriesP2Aux, hsi] at he
      | cons nl rest2 =>
        cases hef : entryFieldsP2 (jsTrim l) (jsTrim nl) with
        | some tri =>
          obtain ⟨k, bw, r⟩ := tri
          have he2 : e ∈ (⟨i0, k, bw, r⟩ : RawEntryP2) ::
              extractEntriesP2Aux (i0 + 1) (nl :: rest2) := by
            simpa [extractEntriesP2Aux, hsi, hef] using he
          rcases List.mem_cons.mp he2 with h2 | h2
          · subst h2
            exact ⟨0, by simp, by simp, by simpa using hsi, by simpa using hef⟩
          · obtain ⟨j, hj, hlen, hpre, hfields⟩ :=
              extractEntriesP2Aux_spec (nl :: rest2) (i0 + 1) e h2
            exact ⟨j + 1, by omega, by simpa using Nat.succ_lt_succ hlen, hpre, hfields⟩
        | none =>
          have he2 : e ∈ extractEntriesP2Aux (i0 + 1) (nl :: rest2) := by
            simpa [extractEntriesP2Aux, hsi, hef] using he
          obtain ⟨j, hj, hlen, hpre, hfields⟩ :=
            extractEntriesP2Aux_spec (nl :: rest2) (i0 + 1) e he2
          exact ⟨j + 1, by omega, by simpa using Nat.succ_lt_succ hlen, hpre, hfields⟩
    · have he2 : e ∈ extractEntriesP2Aux (i0 + 1) rest := by
        simpa [extractEntriesP2Aux, hsi] using he
      obtain ⟨j, hj, hlen, hpre, hfields⟩ := extractEntriesP2Aux_spec rest (i0 + 1) e he2
      refine ⟨j + 1, by omega, by simpa using Nat.succ_lt_succ hlen, hpre, hfields⟩

/-- C7 (claim as stated is refuted below; this is the amended form).  In
the src/App.js iteration, a stream-info line at index `i` whose pair is
malformed — no immediately following nonempty non-comment URI line, no
resolvable layout key (name attribute, video attribute, first URI path
segment, `Layout<N>` token, in that order inside `resolveLayoutKey`), or
a missing bandwidth or resolution — contributes no entry to the scan
output (and hence nothing to the parser's output, which is a function of
`extractEntries`); both scans are total, so no error is raised.  The
part_002 iteration drops entries under its own key resolution — name
attribute, video attribute, else the second-to-last URI path segment
(an empty segment being falsy), with no `Layout<N>` fallback — so its
drop conditions differ from App.js's, as the counterexample below shows
at URI "/a/b.m3u8". -/
theorem C7_malformed_entry_dropped (text : String) (i : Nat) :
    (streamInfMark.isPrefixOf (manifestLine text i) = true →
      ((splitLines text.toList).length ≤ i + 1
        ∨ (manifestLine text (i + 1)).isEmpty = true
        ∨ startsWithHash (manifestLine text (i + 1)) = true
        ∨ resolveLayoutKey (manifestLine text i) (manifestLine text (i + 1)) = none
        ∨ findKeyNum bandwidthAttr (manifestLine text i) = none
        ∨ findResolution (manifestLine text i) = none) →
      ∀ e ∈ extractEntries text, e.idx ≠ i)
    ∧ (streamInfMark.isPrefixOf (manifestLine text i) = true →
      ((splitLines text.toList).length ≤ i + 1
        ∨ (manifestLine text (i + 1)).isEmpty = true
        ∨ startsWithHash (manifestLine text (i + 1)) = true
        ∨ resolveLayoutKeyP2 (manifestLine text i) (manifestLine text (i + 1)) = none
        ∨ resolveLayoutKeyP2 (manifestLine text i) (manifestLine text (i + 1)) = some []
        ∨ findKeyNum bandwidthAttr (manifestLine text i) = none
        ∨ findResolution (manifestLine text i) = none) →
      ∀ e ∈ extractEntriesP2 text, e.idx ≠ i) := by
  constructor
  · intro _ hbad e he heq
    obtain ⟨j, hj, hlen, _, hfields⟩ :=
      extractEntriesAux_spec (splitLines text.toList) 0 e he
    have hji : j = i := by omega
    subst hji
    obtain ⟨hne, hnh, ⟨kl, hkl⟩, hbw, ⟨rl, hrl⟩⟩ := entryFields_eq_some hfields
    rcases hbad with hb | hb | hb | hb | hb | hb
    · omega
    · rw [show manifestLine text (j + 1) = jsTrim ((splitLines text.toList).getD (j + 1) [])
        from rfl] at hb
      rw [hne] at hb
      exact Bool.noConfusion hb
    · rw [show manifestLine text (j + 1) = jsTrim ((splitLines text.toList).getD (j + 1) [])
        from rfl] at hb
      rw [hnh] at hb
      exact Bool.noConfusion hb
    · rw [show manifestLine text j = jsTrim ((splitLines text.toList).getD j []) from rfl,
        show manifestLine text (j + 1) = jsTrim ((splitLines text.toList).getD (j + 1) [])
          from rfl] at hb
      rw [hkl] at hb
      exact Option.noConfusion hb
    · rw [show manifestLine text j = jsTrim ((splitLines text.toList).getD j []) from rfl] at hb
      rw [hbw] at hb
      exact Option.noConfusion hb
    · rw [show manifestLine text j = jsTrim ((splitLines text.toList).getD j []) from rfl] at hb
      rw [hrl] at hb
      exact Option.noConfusion hb
  · intro _ hbad e he heq
    obtain ⟨j, hj, hlen, _, hfields⟩ :=
      extractEntriesP2Aux_spec (splitLines text.toList) 0 e he
    have hji : j = i := by omega
    subst hji
    obtain ⟨hne, hnh, ⟨kl, hkl, hklne⟩, hbw, ⟨rl, hrl⟩⟩ := entryFieldsP2_eq_some hfields
    rcases hbad with hb | hb | hb | hb | hb | hb | hb
    · omega
    · rw [show manifestLine text (j + 1) = jsTrim ((splitLines text.toList).getD (j + 1) [])
        from rfl] at hb
      rw [hne] at hb
      exact Bool.noConfusion hb
    · rw [show manifestLine text (j + 1) = jsTrim ((splitLines text.toList).getD (j + 1) [])
        from rfl] at hb
      rw [hnh] at hb
      exact Bool.noConfusion hb
    · rw [show manifestLine text j = jsTrim ((splitLines text.toList).getD j []) from rfl,
        show manifestLine text (j + 1) = jsTrim ((splitLines text.toList).getD (j + 1) [])
          from rfl] at hb
      rw [hkl] at hb
      exact Option.noConfusion hb
    · rw [show manifestLine text j = jsTrim ((splitLines text.toList).getD j []) from rfl,
        show manifestLine text (j + 1) = jsTrim ((splitLines text.toList).getD (j + 1) [])
          from rfl] at hb
      rw [hkl] at hb
      injection hb with hb2
      exact hklne hb2
    · rw [show manifestLine text j = jsTrim ((splitLines text.toList).getD j []) from rfl] at hb
      rw [hbw] at hb
      exact Option.noConfusion hb
    · rw [show manifestLine text j = jsTrim ((splitLines text.toList).getD j []) from rfl] at hb
      rw [hrl] at hb
      exact Option.noConfusion hb

/-- A stream-info entry whose URI starts with a slash: the claim's key
chain (name, video, first path segment, `Layout<N>`) resolves nothing. -/
def layoutlessUriManifest : String :=
  "#EXT-X-STREAM-INF:BANDWIDTH=700,RESOLUTION=640x360" ++ "\n" ++
  "/a/b.m3u8"

/-- C7 counterexample: on `layoutlessUriManifest`, no layout key resolves
under the claim's chain and App.js drops the entry, but part_002's
second-to-last-segment fallback keeps it with key "a" — the entry does
contribute a Layout to that iteration's parser output, refuting the claim
for part_002. -/
theorem C7_counterexample :
    resolveLayoutKey (manifestLine layoutlessUriManifest 0)
        (manifestLine layoutlessUriManifest 1) = none
      ∧ extractEntries layoutlessUriManifest = []
      ∧ extractEntriesP2 layoutlessUriManifest =
          [{ idx := 0, key := "a", bandwidth := 700, resolution := "640x360" }]
      ∧ (parseManifestTextP2 layoutlessUriManifest exampleUrl).map LayoutP2.name = ["a"] := by
  refine ⟨?_, ?_, ?_, ?_⟩ <;> decide

/-- A default used only to take heads of concrete nonempty entry lists. -/
def dummyRawEntryP2 : RawEntryP2 :=
  { idx := 0, key := "", bandwidth := 0, resolution := "" }

theorem C7_malformed_entry_dropped_witness :
    ((extractEntries malformedMixManifest).headD dummyRawEntry).idx ≠ 0
      ∧ ((extractEntriesP2 malformedMixManifest).headD dummyRawEntryP2).idx ≠ 0 :=
  ⟨(C7_malformed_entry_dropped malformedMixManifest 0).1 (by decide)
      (Or.inr (Or.inr (Or.inr (Or.inr (Or.inl (by decide))))))
      ((extractEntries malformedMixManifest).headD dummyRawEntry) (by decide),
    (C7_malformed_entry_dropped malformedMixManifest 0).2 (by decide)
      (Or.inr (Or.inr (Or.inr (Or.inr (Or.inr (Or.inl (by decide)))))))
      ((extractEntriesP2 malformedMixManifest).headD dummyRawEntryP2) (by decide)⟩

/-- The outcome of the single `fetch` call made by either parser. -/
inductive FetchOutcome where
  | transportFailure (message : String)
  | response (ok : Bool) (status : Nat) (body : String)
  deriving DecidableEq

/-- part_002 lines 36-45: a transport failure rejects; a response with
`ok` false throws `HTTP error! status: N`; otherwise the body is parsed.
No retry is performed — the result is a function of the one outcome. -/
def parseManifestFetchedP2 (outcome : FetchOutcome) (url : String) :
    Except String (List LayoutP2) :=
  match outcome with
  | FetchOutcome.transportFailure msg => Except.error msg
  | FetchOutcome.response ok status body =>
    if ok then Except.ok (parseManifestTextP2 body url)
    else Except.error ("HTTP error! status: " ++ toString status)

/-- App.js lines 115-120: a transport failure rejects, but there is no
`response.ok` check — the body of any response, error or not, is parsed. -/
def parseManifestFetchedAppJs (outcome : FetchOutcome) (url : String) :
    Except String (List Layout) :=
  match outcome with
  | FetchOutcome.transportFailure msg => Except.error msg
  | FetchOutcome.response _ _ body => Except.ok (parseManifestForLayouts body url)

/-! ### C8: fetch-error behaviour -/

/-- C8 (amended): in the part_002 iteration, parsing fails with a fetch
error on transport failure or a non-success HTTP status, without retrying
(the result is a function of the single fetch outcome); the App.js
iteration only fails on transport failure, as refuted below. -/
theorem C8_fetch_error_fails (url msg body : String) (ok : Bool) (status : Nat) :
    parseManifestFetchedP2 (FetchOutcome.transportFailure msg) url = Except.error msg
      ∧ (ok = false →
          parseManifestFetchedP2 (FetchOutcome.response ok status body) url =
            Except.error ("HTTP error! status: " ++ toString status))
      ∧ parseManifestFetchedAppJs (FetchOutcome.transportFailure msg) url =
          Except.error msg := by
  refine ⟨rfl, ?_, rfl⟩
  intro h
  subst h
  rfl

theorem C8_fetch_error_fails_witness :
    parseManifestFetchedP2 (FetchOutcome.response false 404 studioManifest) exampleUrl =
      Except.error ("HTTP error! status: " ++ toString 404) :=
  (C8_fetch_error_fails exampleUrl ("") studioManifest false 404).2.1 rfl

/-- C8 counterexample: the App.js iteration, given a response with a
non-success status (404) whose body happens to be a manifest, returns
parsed layouts instead of failing — refuting the claim that parsing fails
on every non-success HTTP status and never returns layouts parsed from an
error response. -/
theorem C8_counterexample :
    parseManifestFetchedAppJs (FetchOutcome.response false 404 studioManifest) exampleUrl =
        Except.ok (parseManifestForLayouts studioManifest exampleUrl)
      ∧ (parseManifestForLayouts studioManifest exampleUrl).length = 1 := by
  exact ⟨rfl, by decide⟩

/-! ### The playback-session controller of src/unnamed/part_001

State fields mirror the React state and refs; `variants` mirrors the
engine's variant-track list, `now` is wall-clock milliseconds,
`switchDeadline` the pending switch timeout, and `dispatchCount` counts
`selectVariantTrack` dispatches to the engine. -/

/-- A Shaka variant track with the fields the source reads. -/
structure Variant where
  id : Nat
  active : Bool
  label : Option String
  videoLabel : Option String
  originalVideoId : Option String
  originalAudioId : Option String
  videoId : Option Nat
  audioId : Option Nat
  videoObjId : Option Nat
  audioObjId : Option Nat
  bandwidth : Nat
  deriving DecidableEq

/-- JS truthiness of an optional string: undefined and "" are falsy. -/
def nonEmptyOpt : Option String → Option String
  | none => none
  | some s => if s.isEmpty then none else some s

/-- `variant.videoId || 'undefined'` — both undefined and 0 are falsy. -/
def jsIdOrUndefined : Option Nat → String
  | none => "undefined"
  | some n => if n = 0 then ("undefined") else toString n

/-- Template interpolation of a possibly-undefined id. -/
def jsInterpOpt : Option Nat → String
  | none => "undefined"
  | some n => toString n

def m3u8Suffix : List Char := (".m3u8").toList

def videoTok : List Char := ("video").toList

def audioTok : List Char := ("audio").toList

def avTok : List Char := ("av").toList

/-- part_001 lines 135-147, `extractProgramNameFromOriginalId`: first the
regex `_([^_]+)_\d+_\d+_(video|audio|av)\.m3u8$` (capture 1 is the
fourth-from-last underscore-separated field), else `_([^_]+)\.m3u8$`
(capture 1 is the nonempty field after the last underscore), else
undefined. -/
def extractProgramNameFromOriginalId (o : Option String) : Option String :=
  match nonEmptyOpt o with
  | none => none
  | some str =>
    let cs := str.toList
    if m3u8Suffix.isSuffixOf cs then
      let parts := splitOnSep '_' (cs.take (cs.length - m3u8Suffix.length))
      let n := parts.length
      let cap := parts.getD (n - 4) []
      let d1 := parts.getD (n - 3) []
      let d2 := parts.getD (n - 2) []
      let t := parts.getD (n - 1) []
      if 5 ≤ n ∧ cap ≠ [] ∧ d1 ≠ [] ∧ d1.all Char.isDigit = true
          ∧ d2 ≠ [] ∧ d2.all Char.isDigit = true
          ∧ (t = videoTok ∨ t = audioTok ∨ t = avTok) then
        some (String.mk cap)
      else if 2 ≤ n ∧ t ≠ [] then some (String.mk t)
      else none
    else none

/-- part_001 lines 183-187: the program-name chain for an arbitrary track. -/
def programNameOf (v : Variant) : String :=
  match nonEmptyOpt v.label with
  | some l => l
  | none =>
    match nonEmptyOpt v.videoLabel with
    | some l => l
    | none =>
      match extractProgramNameFromOriginalId v.originalVideoId with
      | some l => l
      | none =>
        match extractProgramNameFromOriginalId v.originalAudioId with
        | some l => l
        | none =>
          "Program (VID: " ++ jsIdOrUndefined v.videoId ++ ", AID: " ++
            jsIdOrUndefined v.audioId ++ ")"

/-- part_001 lines 209-211: the shorter chain used for the active track. -/
def activeProgramNameOf (v : Variant) : String :=
  match nonEmptyOpt v.label with
  | some l => l
  | none =>
    match nonEmptyOpt v.videoLabel with
    | some l => l
    | none =>
      "Program (VID: " ++ jsInterpOpt v.videoObjId ++ ", AID: " ++
        jsInterpOpt v.audioObjId ++ ")"

/-- One entry of the `programMap` (part_001 lines 190-197). -/
structure Program where
  label : String
  variantId : Nat
  bandwidth : Nat
  manifestVersion : Nat
  deriving DecidableEq

/-- part_001 lines 181-198: first track per program name wins. -/
def buildPrograms (tracks : List Variant) (ver : Nat) : List Program :=
  tracks.foldl
    (fun acc v =>
      let pn := programNameOf v
      if acc.any (fun p => p.label == pn) then acc
      else acc ++ [{ label := pn, variantId := v.id, bandwidth := v.bandwidth,
                     manifestVersion := ver }])
    []

/-- The controller state (React state plus refs of part_001). -/
structure ControllerState where
  isLoading : Bool
  isSwitching : Bool
  isPlayerReady : Bool
  manifestVersion : Nat
  programs : List Program
  selectedProgramLabel : String
  errorMsg : Option String
  abrEnabled : Bool
  engineAbrEnabled : Bool
  variants : List Variant
  switchDeadline : Option Nat
  now : Nat
  dispatches : List Nat
  deriving DecidableEq

/-- The switch timeout of part_001 line 305. -/
def switchTimeoutMs : Nat := 5000

/-- part_001 lines 154-165: the synchronous prefix of `loadManifest`,
returning the new state and the captured manifest version.  The version
counter is incremented exactly once per load request. -/
def loadManifestStart (s : ControllerState) : ControllerState × Nat :=
  let s2 : ControllerState :=
    { s with
      isLoading := true, errorMsg := none, programs := [],
      selectedProgramLabel := "", isSwitching := false, switchDeadline := none,
      manifestVersion := s.manifestVersion + 1 }
  (s2, s2.manifestVersion)

/-- part_001 lines 167-232: the continuation after the engine load
resolves with track list `tracks`.  A result whose captured version no
longer equals the session version is discarded outright. -/
def loadManifestResolve (captured : Nat) (tracks : List Variant)
    (s : ControllerState) : ControllerState :=
  if captured ≠ s.manifestVersion then s
  else
    let progs := buildPrograms tracks captured
    let s2 := { s with programs := progs, variants := tracks }
    let s3 :=
      match progs with
      | [] => { s2 with errorMsg := some ("No distinct programs found.") }
      | p0 :: _ =>
        let initial :=
          match tracks.find? (fun (v : Variant) => v.active) with
          | some av =>
            match progs.find? (fun (p : Program) => p.label == activeProgramNameOf av) with
            | some p => p.label
            | none => p0.label
          | none => p0.label
        { s2 with selectedProgramLabel := initial }
    { s3 with isLoading := false }

/-- part_001 lines 223-232: the rejection continuation; a stale captured
version skips both the error assignment and the `isLoading` reset. -/
def loadManifestReject (captured : Nat) (msg : String) (s : ControllerState) :
    ControllerState :=
  if captured ≠ s.manifestVersion then s
  else { s with errorMsg := some msg, isLoading := false }

/-- Does the engine's active variant already carry the target id? -/
def activeMatches (vs : List Variant) (tid : Nat) : Bool :=
  match vs.find? (fun v => v.active) with
  | some av => av.id == tid
  | none => false

/-- part_001 lines 279-305: the dispatch to the engine — switching flag
raised, error cleared, ABR disabled for the manual switch, one
`selectVariantTrack` call, and a 5000 ms timeout armed. -/
def dispatchSwitch (pd : Program) (s : ControllerState) : ControllerState :=
  { s with
    isSwitching := true, errorMsg := none, engineAbrEnabled := false,
    dispatches := s.dispatches ++ [pd.variantId],
    switchDeadline := some (s.now + switchTimeoutMs) }

/-- part_001 lines 239-313: one run of the switch effect.  A request while
`isSwitching` is already set is ignored (only logged), not queued; program
data from a superseded manifest version is skipped. -/
def switchEffect (s : ControllerState) : ControllerState :=
  if s.selectedProgramLabel.isEmpty ∨ s.programs = [] ∨ s.isPlayerReady = false then s
  else if s.isSwitching then s
  else
    match s.programs.find? (fun p => p.label == s.selectedProgramLabel) with
    | none => s
    | some pd =>
      if pd.variantId = 0 then s
      else if pd.manifestVersion ≠ s.manifestVersion then s
      else if activeMatches s.variants pd.variantId then s
      else
        match s.variants.find? (fun v => v.id == pd.variantId) with
        | none =>
          { s with
            errorMsg := some ("Variant not found. The stream may have changed. Try reloading.") }
        | some _ => dispatchSwitch pd s

/-- part_001 lines 326-340 (`handleProgramChange`) composed with the
effect the selection change triggers: a request during a switch or a load
is dropped entirely. -/
def handleProgramChange (newValue : String) (s : ControllerState) : ControllerState :=
  if s.isSwitching || s.isLoading then s
  else switchEffect { s with selectedProgramLabel := newValue }

/-- part_001 lines 82-99: the engine's variant-changed confirmation resets
the switching flag, clears the timeout, and re-enables ABR if it was
enabled by the user. -/
def onVariantChanged (s : ControllerState) : ControllerState :=
  let s2 := { s with isSwitching := false, switchDeadline := none }
  if s.abrEnabled then { s2 with engineAbrEnabled := true } else s2

/-- part_001 lines 301-305: the timeout handler resets the switching flag
unconditionally. -/
def fireSwitchTimeout (s : ControllerState) : ControllerState :=
  { s with isSwitching := false, switchDeadline := none }

/-- The timer runtime: let `d` milliseconds pass with no engine event;
the armed switch timeout fires when its deadline is reached. -/
def elapse (d : Nat) (s : ControllerState) : ControllerState :=
  let s2 := { s with now := s.now + d }
  match s.switchDeadline with
  | some t => if t ≤ s2.now then fireSwitchTimeout s2 else s2
  | none => s2

/-! ### The part_000 iteration of the switch timeout

src/unnamed/part_000 lines 196-219: the switch effect only dispatches when
the render's `isSwitching` is false (the guard at line 177 includes
`|| isSwitching`), sets the flag, and arms a 5000 ms `setTimeout` whose
callback reads `isSwitching` from the render closure — the value bound
before `setIsSwitching(true)` ran, hence `false` at every dispatch — and
only resets the flag `if (isSwitching)`. -/

/-- part_000 lines 200-212: the dispatch, returning the new state together
with the `isSwitching` value captured by the timeout closure (the render's
binding, read before the dispatch raised the flag). -/
def dispatchSwitchP0 (pd : Program) (s : ControllerState) : ControllerState × Bool :=
  ({ s with
      isSwitching := true, errorMsg := none,
      dispatches := s.dispatches ++ [pd.variantId],
      switchDeadline := some (s.now + switchTimeoutMs) }, s.isSwitching)

/-- part_000 lines 213-218: the timeout callback resets the flag only if
the captured closure value was true. -/
def fireSwitchTimeoutP0 (captured : Bool) (s : ControllerState) : ControllerState :=
  if captured then { s with isSwitching := false, switchDeadline := none }
  else { s with switchDeadline := none }

/-- Timer runtime for the part_000 callback. -/
def elapseP0 (captured : Bool) (d : Nat) (s : ControllerState) : ControllerState :=
  let s2 := { s with now := s.now + d }
  match s.switchDeadline with
  | some t => if t ≤ s2.now then fireSwitchTimeoutP0 captured s2 else s2
  | none => s2

/-! ### C2, C3, C4: controller invariants -/

/-- C2: at most one switch is in flight.  From a quiescent state, a valid
selection request dispatches exactly once to the engine and raises the
switching flag; a second request of any value arriving while the flag is
still set leaves the state — and in particular the engine dispatch list —
completely unchanged (ignored, not queued). -/
theorem C2_second_request_dropped (s : ControllerState) (p q : String) (pd : Program)
    (hsw : s.isSwitching = false) (hld : s.isLoading = false)
    (hready : s.isPlayerReady = true) (hp : p.isEmpty = false)
    (hprogs : s.programs ≠ [])
    (hfind : s.programs.find? (fun x => x.label == p) = some pd)
    (hvid : pd.variantId ≠ 0)
    (hver : pd.manifestVersion = s.manifestVersion)
    (hact : activeMatches s.variants pd.variantId = false)
    (hsel : ∃ v, s.variants.find? (fun x => x.id == pd.variantId) = some v) :
    (handleProgramChange p s).dispatches = s.dispatches ++ [pd.variantId]
      ∧ (handleProgramChange p s).isSwitching = true
      ∧ handleProgramChange q (handleProgramChange p s) = handleProgramChange p s
      ∧ (handleProgramChange q (handleProgramChange p s)).dispatches
          = s.dispatches ++ [pd.variantId] := by
  obtain ⟨v, hv⟩ := hsel
  have hstep : handleProgramChange p s =
      dispatchSwitch pd { s with selectedProgramLabel := p } := by
    simp only [handleProgramChange, hsw, hld, Bool.or_self, Bool.false_eq_true, if_false]
    simp [switchEffect, hp, hprogs, hready, hfind, hvid, hver, hact, hv]
  refine ⟨?_, ?_, ?_, ?_⟩
  · rw [hstep]
    simp [dispatchSwitch]
  · rw [hstep]
    simp [dispatchSwitch]
  · rw [hstep]
    simp [handleProgramChange, dispatchSwitch]
  · rw [hstep]
    simp [handleProgramChange, dispatchSwitch]

/-- A sample engine track that is currently active. -/
def sampleTrackA : Variant :=
  { id := 1, active := true, label := some ("grid"), videoLabel := none,
    originalVideoId := none, originalAudioId := none, videoId := some 1,
    audioId := some 2, videoObjId := some 1, audioObjId := some 2,
    bandwidth := 1000000 }

/-- A sample engine track for a second program. -/
def sampleTrackB : Variant :=
  { id := 2, active := false, label := some ("solo"), videoLabel := none,
    originalVideoId := none, originalAudioId := none, videoId := some 3,
    audioId := some 4, videoObjId := some 3, audioObjId := some 4,
    bandwidth := 2000000 }

def sampleProgramGrid : Program :=
  { label := "grid", variantId := 1, bandwidth := 1000000, manifestVersion := 1 }

def sampleProgramSolo : Program :=
  { label := "solo", variantId := 2, bandwidth := 2000000, manifestVersion := 1 }

/-- A quiescent session after one successful load. -/
def sampleSession : ControllerState :=
  { isLoading := false, isSwitching := false, isPlayerReady := true,
    manifestVersion := 1, programs := [sampleProgramGrid, sampleProgramSolo],
    selectedProgramLabel := "grid", errorMsg := none, abrEnabled := false,
    engineAbrEnabled := false, variants := [sampleTrackA, sampleTrackB],
    switchDeadline := none, now := 0, dispatches := [] }

theorem C2_second_request_dropped_witness :
    (handleProgramChange ("grid") (handleProgramChange ("solo") sampleSession)).dispatches
      = [2] := by
  have h := C2_second_request_dropped sampleSession ("solo") ("grid") sampleProgramSolo
    rfl rfl rfl rfl (by decide) (by decide) (by decide) rfl (by decide)
    ⟨sampleTrackB, by decide⟩
  simpa [sampleSession, sampleProgramSolo] using h.2.2.2

/-- C3: the manifest version counter is incremented exactly once per
top-level load request (hence strictly increasing), and any asynchronous
continuation — load resolution, load rejection, or a switch driven by
program data — that captured a version older than the session's current
version leaves the session state untouched. -/
theorem C3_version_monotone_stale_discarded (s : ControllerState) (v : Nat)
    (tracks : List Variant) (msg : String) (pd : Program)
    (hstale : v < s.manifestVersion)
    (hfind : s.programs.find? (fun x => x.label == s.selectedProgramLabel) = some pd)
    (hpdstale : pd.manifestVersion < s.manifestVersion) :
    (loadManifestStart s).1.manifestVersion = s.manifestVersion + 1
      ∧ (loadManifestStart s).2 = s.manifestVersion + 1
      ∧ loadManifestResolve v tracks s = s
      ∧ loadManifestReject v msg s = s
      ∧ switchEffect s = s := by
  have hne : v ≠ s.manifestVersion := Nat.ne_of_lt hstale
  have hpne : pd.manifestVersion ≠ s.manifestVersion := Nat.ne_of_lt hpdstale
  refine ⟨rfl, rfl, ?_, ?_, ?_⟩
  · simp [loadManifestResolve, hne]
  · simp [loadManifestReject, hne]
  · simp only [switchEffect, hfind]
    split_ifs <;> simp_all

/-- A session whose current manifest version has advanced past the data
captured by its programs. -/
def staleSession : ControllerState :=
  { sampleSession with manifestVersion := 2 }

theorem C3_version_monotone_stale_discarded_witness :
    (loadManifestStart staleSession).1.manifestVersion = staleSession.manifestVersion + 1
      ∧ loadManifestResolve 1 [] staleSession = staleSession
      ∧ switchEffect staleSession = staleSession := by
  have h := C3_version_monotone_stale_discarded staleSession 1 [] ("boom")
    sampleProgramGrid (by decide) (by decide) (by decide)
  exact ⟨h.1, h.2.2.1, h.2.2.2.2⟩

/-- C4 (claim as stated is refuted below; this is the amended form).  In
the part_001 iteration a dispatched switch arms the 5000 ms timeout whose
handler unconditionally resets the switching flag, so with no engine
confirmation the controller leaves the switching state within the timeout
(a variant-changed confirmation also resets it).  In the part_000
iteration the timeout callback captures the render's `isSwitching` value —
false at every dispatch, since the effect only dispatches when the flag is
down — and only resets `if (isSwitching)`, so the stale capture makes the
handler a no-op on the flag: absent a confirmation, that iteration remains
in the switching state indefinitely. -/
theorem C4_switch_timeout_liveness (pd : Program) (s : ControllerState) :
    switchTimeoutMs = 5000
      ∧ (dispatchSwitch pd s).isSwitching = true
      ∧ (dispatchSwitch pd s).switchDeadline = some (s.now + switchTimeoutMs)
      ∧ (∀ d, switchTimeoutMs ≤ d → (elapse d (dispatchSwitch pd s)).isSwitching = false)
      ∧ (onVariantChanged (dispatchSwitch pd s)).isSwitching = false
      ∧ (dispatchSwitchP0 pd s).2 = s.isSwitching
      ∧ (s.isSwitching = false → ∀ d,
          (elapseP0 (dispatchSwitchP0 pd s).2 d (dispatchSwitchP0 pd s).1).isSwitching
            = true) := by
  refine ⟨rfl, rfl, rfl, ?_, ?_, rfl, ?_⟩
  · intro d hd
    have hle : s.now + switchTimeoutMs ≤ s.now + d := Nat.add_le_add_left hd s.now
    simp [elapse, dispatchSwitch, fireSwitchTimeout, hle]
  · cases habr : s.abrEnabled <;> simp [onVariantChanged, dispatchSwitch, habr]
  · intro hq d
    by_cases hfire : s.now + switchTimeoutMs ≤ s.now + d <;>
      simp [elapseP0, dispatchSwitchP0, fireSwitchTimeoutP0, hq, hfire]

/-- C4 counterexample: in part_000, dispatching from a quiescent session
captures `isSwitching = false` in the timeout closure, so after the 5000 ms
timeout fires — and after any amount of time at all — the switching flag
is still set: the timeout handler never resets it, refuting the claim that
the switching-in-progress flag is reset by the timeout handler in every
cited iteration. -/
theorem C4_counterexample :
    (dispatchSwitchP0 sampleProgramSolo sampleSession).1.isSwitching = true
      ∧ (dispatchSwitchP0 sampleProgramSolo sampleSession).2 = false
      ∧ (elapseP0 (dispatchSwitchP0 sampleProgramSolo sampleSession).2 5000
          (dispatchSwitchP0 sampleProgramSolo sampleSession).1).isSwitching = true
      ∧ (elapseP0 (dispatchSwitchP0 sampleProgramSolo sampleSession).2 1000000
          (dispatchSwitchP0 sampleProgramSolo sampleSession).1).isSwitching = true := by
  refine ⟨rfl, rfl, ?_, ?_⟩ <;> decide

theorem C4_switch_timeout_liveness_witness :
    (elapse 5000 (dispatchSwitch sampleProgramSolo sampleSession)).isSwitching = false
      ∧ (elapseP0 (dispatchSwitchP0 sampleProgramSolo sampleSession).2 5000
          (dispatchSwitchP0 sampleProgramSolo sampleSession).1).isSwitching = true :=
  ⟨(C4_switch_timeout_liveness sampleProgramSolo sampleSession).2.2.2.1 5000 (Nat.le_refl _),
   (C4_switch_timeout_liveness sampleProgramSolo sampleSession).2.2.2.2.2.2 rfl 5000⟩

/-! ### The stall watchdog of src/unnamed/part_003 (`setupStallDetection`)

Playback times are JS doubles holding media times; they are modelled as
rationals, which the watchdog's additions and comparisons are exact on. -/

/-- Sampling interval of the watchdog timer (part_003 line 132). -/
def stallSampleIntervalMs : Nat := 1000

/-- Consecutive-miss threshold (part_003 line 104). -/
def stallThreshold : Nat := 3

/-- Cool-down after which the stalled flag clears (part_003 line 123). -/
def stallClearDelayMs : Nat := 3000

/-- Live recovery seeks to `seekRange.end - 2` (line 114). -/
def liveEdgeOffset : ℚ := 2

/-- Live recovery only fires when the edge is over 10 s ahead (line 112). -/
def liveEdgeGap : ℚ := 10

/-- Bounded-content recovery nudges forward 0.1 s (line 119). -/
def vodNudge : ℚ := 1 / 10

/-- The watchdog's mutable refs and React state. -/
structure WatchdogState where
  stallCount : Nat
  lastTimeUpdate : ℚ
  lastPlaybackTime : ℚ
  playbackStalled : Bool
  stallClearDeadline : Option Nat
  nowMs : Nat
  deriving DecidableEq

/-- What one sample of the media element and player observes. -/
structure SampleInput where
  paused : Bool
  currentTime : ℚ
  isLive : Bool
  seekRangeEnd : ℚ
  deriving DecidableEq

/-- A recovery action issued to the media element. -/
inductive RecoveryAction where
  | seekTo (target : ℚ)
  deriving DecidableEq

/-- One tick of the interval callback (part_003 lines 94-132): a miss is
counted when the position is unchanged while not paused; at the third
consecutive miss a single recovery is attempted (live: seek to two seconds
before the live edge, but only when the edge is more than ten seconds
ahead; bounded: nudge forward 0.1 s), the counter resets, the stalled flag
raises, and its clear is scheduled 3000 ms out.  Any other sample resets
the counter and lowers the flag. -/
def stallTick (inp : SampleInput) (st : WatchdogState) :
    WatchdogState × Option RecoveryAction :=
  if inp.paused = false ∧ inp.currentTime = st.lastTimeUpdate then
    if stallThreshold ≤ st.stallCount + 1 then
      let act : Option RecoveryAction :=
        if inp.isLive then
          if inp.seekRangeEnd > inp.currentTime + liveEdgeGap then
            some (RecoveryAction.seekTo (inp.seekRangeEnd - liveEdgeOffset))
          else none
        else some (RecoveryAction.seekTo (inp.currentTime + vodNudge))
      ({ st with
          stallCount := 0, playbackStalled := true,
          stallClearDeadline := some (st.nowMs + stallClearDelayMs),
          lastTimeUpdate := inp.currentTime, lastPlaybackTime := inp.currentTime }, act)
    else
      ({ st with
          stallCount := st.stallCount + 1,
          lastTimeUpdate := inp.currentTime, lastPlaybackTime := inp.currentTime }, none)
  else
    ({ st with
        stallCount := 0, playbackStalled := false,
        lastTimeUpdate := inp.currentTime, lastPlaybackTime := inp.currentTime }, none)

/-- part_003 lines 265-270: a buffering-start notification resets the miss
counter; a buffering-end notification leaves it alone. -/
def onBufferingEvent (buffering : Bool) (st : WatchdogState) : WatchdogState :=
  if buffering then { st with stallCount := 0 } else st

/-- part_003 lines 260-263: the streaming event also resets the counter. -/
def onStreamingEvent (st : WatchdogState) : WatchdogState :=
  { st with stallCount := 0 }

/-- The scheduled cool-down clear (part_003 line 123). -/
def fireStallClear (st : WatchdogState) : WatchdogState :=
  { st with playbackStalled := false, stallClearDeadline := none }

/-! ### C5: the stall watchdog -/

/-- C5 (claim as stated is refuted below; this is the amended form).  The
watchdog samples once per second; a sample with the position unchanged
while not paused increments the miss counter; any sample where the
position changed resets the counter and lowers the stalled flag, and a
buffering-start notification resets the counter.  At the third consecutive
miss it resets the counter, raises the transient stalled flag with a
3000 ms clear scheduled, and performs at most one recovery action: for
live content a seek to two seconds before the live edge, but only when the
edge is more than ten seconds ahead of the position (otherwise no action);
for bounded content a nudge 0.1 s forward. -/
theorem C5_stall_watchdog (inp : SampleInput) (st : WatchdogState) :
    stallSampleIntervalMs = 1000 ∧ stallThreshold = 3
      ∧ (inp.paused = false → inp.currentTime = st.lastTimeUpdate →
          st.stallCount + 1 < stallThreshold →
          (stallTick inp st).1.stallCount = st.stallCount + 1
            ∧ (stallTick inp st).2 = none)
      ∧ (inp.currentTime ≠ st.lastTimeUpdate →
          (stallTick inp st).1.stallCount = 0
            ∧ (stallTick inp st).1.playbackStalled = false
            ∧ (stallTick inp st).2 = none)
      ∧ (onBufferingEvent true st).stallCount = 0
      ∧ (inp.paused = false → inp.currentTime = st.lastTimeUpdate →
          stallThreshold ≤ st.stallCount + 1 →
          (stallTick inp st).1.stallCount = 0
            ∧ (stallTick inp st).1.playbackStalled = true
            ∧ (stallTick inp st).1.stallClearDeadline = some (st.nowMs + stallClearDelayMs)
            ∧ (inp.isLive = true → inp.seekRangeEnd > inp.currentTime + liveEdgeGap →
                (stallTick inp st).2 =
                  some (RecoveryAction.seekTo (inp.seekRangeEnd - liveEdgeOffset)))
            ∧ (inp.isLive = true → inp.seekRangeEnd ≤ inp.currentTime + liveEdgeGap →
                (stallTick inp st).2 = none)
            ∧ (inp.isLive = false →
                (stallTick inp st).2 =
                  some (RecoveryAction.seekTo (inp.currentTime + vodNudge))))
      ∧ (fireStallClear st).playbackStalled = false := by
  refine ⟨rfl, rfl, ?_, ?_, ?_, ?_, ?_⟩
  · intro hpause heq hlt
    have hnot : ¬ stallThreshold ≤ st.stallCount + 1 := Nat.not_le_of_lt hlt
    constructor <;> simp [stallTick, hpause, heq, hnot]
  · intro hne
    refine ⟨?_, ?_, ?_⟩ <;> simp [stallTick, hne]
  · simp [onBufferingEvent]
  · intro hpause heq hge
    refine ⟨?_, ?_, ?_, ?_, ?_, ?_⟩
    · simp [stallTick, hpause, heq, hge]
    · simp [stallTick, hpause, heq, hge]
    · simp [stallTick, hpause, heq, hge]
    · intro hlive hfar
      rw [heq] at hfar
      simp [stallTick, hpause, heq, hge, hlive, hfar]
    · intro hlive hnear
      have hnot : ¬ inp.seekRangeEnd > inp.currentTime + liveEdgeGap := not_lt.mpr hnear
      rw [heq] at hnot
      simp [stallTick, hpause, heq, hge, hlive, hnot]
    · intro hvod
      simp [stallTick, hpause, heq, hge, hvod]
  · simp [fireStallClear]

/-- A live sample stalled at position 50 with the live edge only 5 s away. -/
def stalledLiveInput : SampleInput :=
  { paused := false, currentTime := 50, isLive := true, seekRangeEnd := 55 }

/-- A watchdog state two misses in at the same position. -/
def nearStallState : WatchdogState :=
  { stallCount := 2, lastTimeUpdate := 50, lastPlaybackTime := 50,
    playbackStalled := false, stallClearDeadline := none, nowMs := 7000 }

/-- C5 counterexample: on live content whose live edge is not more than
ten seconds ahead, the third consecutive miss raises the stalled flag and
resets the counter but performs no recovery action at all — refuting the
claim that reaching the threshold always performs exactly one recovery
action (seek near the live edge for live content). -/
theorem C5_counterexample :
    stalledLiveInput.paused = false
      ∧ stalledLiveInput.currentTime = nearStallState.lastTimeUpdate
      ∧ nearStallState.stallCount + 1 = stallThreshold
      ∧ stalledLiveInput.isLive = true
      ∧ (stallTick stalledLiveInput nearStallState).1.playbackStalled = true
      ∧ (stallTick stalledLiveInput nearStallState).1.stallCount = 0
      ∧ (stallTick stalledLiveInput nearStallState).2 = none := by
  have hnear : ¬ ((55 : ℚ) > 50 + liveEdgeGap) := by norm_num [liveEdgeGap]
  refine ⟨rfl, rfl, rfl, rfl, ?_, ?_, ?_⟩ <;>
    simp [stallTick, stalledLiveInput, nearStallState, stallThreshold, hnear]

/-- A bounded-content sample stalled at position 20. -/
def stalledVodInput : SampleInput :=
  { paused := false, currentTime := 20, isLive := false, seekRangeEnd := 0 }

/-- A watchdog state two misses in at position 20. -/
def nearStallStateVod : WatchdogState :=
  { stallCount := 2, lastTimeUpdate := 20, lastPlaybackTime := 20,
    playbackStalled := false, stallClearDeadline := none, nowMs := 4000 }

theorem C5_stall_watchdog_witness :
    (stallTick stalledVodInput nearStallStateVod).2 =
        some (RecoveryAction.seekTo (20 + vodNudge))
      ∧ (stallTick stalledVodInput nearStallStateVod).1.playbackStalled = true := by
  have h := (C5_stall_watchdog stalledVodInput nearStallStateVod).2.2.2.2.2.1
    rfl (by decide) (by decide)
  exact ⟨h.2.2.2.2.2 rfl, h.2.1⟩

/-! ### The region hit mapper of src/unnamed/part_002 (`handleVideoClick`)

Surface geometry is in CSS pixels (JS doubles), modelled as rationals.
Rational division by zero yields 0 in Lean rather than the JS Infinity,
so the geometric theorems constrain the dimensions to be nonzero, as they
are for any real rendering surface. -/

/-- A region as served by the region-metadata service. -/
structure Region where
  x : ℚ
  y : ℚ
  width : ℚ
  height : ℚ
  sourceType : String
  sourceIdx : Nat
  parentLayoutName : String
  deriving DecidableEq

/-- The bounding client rect of the video container. -/
structure RectBox where
  left : ℚ
  top : ℚ
  width : ℚ
  height : ℚ
  deriving DecidableEq

/-- Region area, as in the reduce of part_002 lines 336-341. -/
def regionArea (r : Region) : ℚ := r.width * r.height

/-- part_002 lines 336-341: the JS reduce keeping the first strictly
largest-area region, over index-tagged regions (JS object identity). -/
def pickLargest (l : List (Nat × Region)) : Option (Nat × Region) :=
  match l with
  | [] => none
  | p :: rest =>
    some (rest.foldl
      (fun best cur => if regionArea best.2 < regionArea cur.2 then cur else best) p)

/-- part_002 lines 343-348: filter out the largest region (by identity,
hence by index), then find the first region containing the point. -/
def hitRegion (regions : List Region) (cx cy : ℚ) : Option (Nat × Region) :=
  match pickLargest regions.enum with
  | none => none
  | some (j, _) =>
    (regions.enum.filter (fun p => p.1 != j)).find?
      (fun p => decide (p.2.x ≤ cx ∧ cx ≤ p.2.x + p.2.width ∧
        p.2.y ≤ cy ∧ cy ≤ p.2.y + p.2.height))

/-- part_002 lines 312-332: the centered letterbox/pillarbox transform
from a client-space pointer position to canvas space. -/
def mapToCanvas (container : RectBox) (videoW videoH canvasW canvasH : ℚ)
    (clientX clientY : ℚ) : ℚ × ℚ :=
  let videoAspect := videoW / videoH
  let containerAspect := container.width / container.height
  let dispW := if videoAspect < containerAspect then container.height * videoAspect
    else container.width
  let dispH := if videoAspect < containerAspect then container.height
    else container.width / videoAspect
  let offX := if videoAspect < containerAspect then (container.width - dispW) / 2 else 0
  let offY := if videoAspect < containerAspect then 0 else (container.height - dispH) / 2
  let clickX := clientX - container.left
  let clickY := clientY - container.top
  (((clickX - offX) / dispW) * canvasW, ((clickY - offY) / dispH) * canvasH)

/-- part_002 lines 350-362: resolve the hit region's
`parent_layout_name` case-insensitively against the parsed layouts; a
resolvable target differing from the active layout is proposed, the same
layout or an unresolvable name proposes nothing (the latter is only
logged). -/
def resolveProposal (layouts : List LayoutP2) (selectedLayout target : String) :
    Option String :=
  match layouts.find? (fun l => lowerStr l.name == lowerStr target) with
  | some nl => if nl.name ≠ selectedLayout then some nl.name else none
  | none => none

/-- part_002 lines 305-363, `handleVideoClick`, as the selection proposal
it makes (`none` means the handler changes no session state). -/
def handleVideoClick (layouts : List LayoutP2) (selectedLayout : String)
    (regions : List Region) (canvasW canvasH : ℚ) (container : RectBox)
    (videoW videoH clientX clientY : ℚ) : Option String :=
  if layouts.length ≤ 1 then none
  else if videoW = 0 ∨ videoH = 0 then none
  else
    let pt := mapToCanvas container videoW videoH canvasW canvasH clientX clientY
    if regions = [] then none
    else
      match hitRegion regions pt.1 pt.2 with
      | none => none
      | some (_, r) => resolveProposal layouts selectedLayout r.parentLayoutName

/-! ### C6 and C10: click mapping, hit testing, resolution -/

/-- The 1920x1080 container rect at the origin used by the example. -/
def exampleContainer : RectBox := { left := 0, top := 0, width := 1920, height := 1080 }

/-- The full-canvas background pane (the largest region, excluded). -/
def backgroundRegion : Region :=
  { x := 0, y := 0, width := 1920, height := 1080, sourceType := "screen",
    sourceIdx := 0, parentLayoutName := "full" }

/-- The example region of the claim, linking to layout "wide". -/
def wideRegion : Region :=
  { x := 0, y := 0, width := 960, height := 1080, sourceType := "participant",
    sourceIdx := 1, parentLayoutName := "wide" }

def exampleRegionsC6 : List Region := [backgroundRegion, wideRegion]

def exampleLayoutsC6 : List LayoutP2 :=
  [{ name := "grid", displayName := "grid", masterUrl := "u1" },
   { name := "wide", displayName := "wide", masterUrl := "u2" }]

/-- C6: (1) on a 1920x1080 surface showing 1920x1080 video, the pointer at
client (100,100) maps to canvas point (100,100), and with the active
layout "grid", regions `[backgroundRegion, wideRegion]` and the claim's
region `{x:0,y:0,w:960,h:1080,parent:"wide"}` it is a hit proposing layout
"wide"; (2) the hit test never returns the single largest-area region;
(3) a hit whose parent layout name resolves case-insensitively to a layout
different from the active one proposes that layout; (4) a hit whose parent
layout name resolves to no layout proposes nothing — ignored, not an
error. -/
theorem C6_click_mapping_hit_resolution :
    (mapToCanvas exampleContainer 1920 1080 1920 1080 100 100 = (100, 100)
      ∧ handleVideoClick exampleLayoutsC6 ("grid") exampleRegionsC6 1920 1080
          exampleContainer 1920 1080 100 100 = some ("wide"))
    ∧ (∀ (regions : List Region) (cx cy : ℚ) (j : Nat) (rj : Region) (i : Nat) (r : Region),
        pickLargest regions.enum = some (j, rj) →
        hitRegion regions cx cy = some (i, r) → i ≠ j)
    ∧ (∀ (layouts : List LayoutP2) (sel target : String) (nl : LayoutP2),
        layouts.find? (fun l => lowerStr l.name == lowerStr target) = some nl →
        nl.name ≠ sel → resolveProposal layouts sel target = some nl.name)
    ∧ (∀ (layouts : List LayoutP2) (sel target : String),
        layouts.find? (fun l => lowerStr l.name == lowerStr target) = none →
        resolveProposal layouts sel target = none) := by
  refine ⟨⟨?_, ?_⟩, ?_, ?_, ?_⟩
  · norm_num [mapToCanvas, exampleContainer]
  · have hhit : hitRegion exampleRegionsC6
        (mapToCanvas exampleContainer 1920 1080 1920 1080 100 100).1
        (mapToCanvas exampleContainer 1920 1080 1920 1080 100 100).2 =
          some (1, wideRegion) := by
      norm_num [hitRegion, mapToCanvas, exampleContainer, exampleRegionsC6, pickLargest,
        regionArea, List.enum, backgroundRegion, wideRegion, List.filter, List.find?]
    have hres : resolveProposal exampleLayoutsC6 ("grid") wideRegion.parentLayoutName =
        some ("wide") := by decide
    simp only [handleVideoClick, hhit]
    rw [hres]
    norm_num [exampleLayoutsC6, exampleRegionsC6]
    intro hcontra
    exact (List.cons_ne_nil _ _ hcontra).elim
  · intro regions cx cy j rj i r hpick hhit
    unfold hitRegion at hhit
    rw [hpick] at hhit
    have hmem := List.mem_of_find?_eq_some hhit
    have hfilter := (List.mem_filter.mp hmem).2
    intro hij
    subst hij
    simp at hfilter
  · intro layouts sel target nl hfind hne
    simp [resolveProposal, hfind, hne]
  · intro layouts sel target hfind
    simp [resolveProposal, hfind]

theorem C6_click_mapping_hit_resolution_witness :
    handleVideoClick exampleLayoutsC6 ("grid") exampleRegionsC6 1920 1080
        exampleContainer 1920 1080 100 100 = some ("wide")
      ∧ resolveProposal exampleLayoutsC6 ("grid") ("missing") = none :=
  ⟨C6_click_mapping_hit_resolution.1.2,
    C6_click_mapping_hit_resolution.2.2.2 exampleLayoutsC6 ("grid") ("missing") (by decide)⟩

/-- C10: with fewer than two layouts loaded, a pointer click is a complete
no-op — the handler returns before any coordinate mapping or hit testing
(the result does not depend on any of the geometric inputs) and proposes
no selection change. -/
theorem C10_click_noop_few_layouts (layouts : List LayoutP2) (selectedLayout : String)
    (regions : List Region) (canvasW canvasH : ℚ) (container : RectBox)
    (videoW videoH clientX clientY : ℚ)
    (h : layouts.length ≤ 1) :
    handleVideoClick layouts selectedLayout regions canvasW canvasH container
      videoW videoH clientX clientY = none := by
  simp [handleVideoClick, h]

theorem C10_click_noop_few_layouts_witness :
    handleVideoClick [{ name := "only", displayName := "only", masterUrl := "u" }]
      ("only") exampleRegionsC6 1920 1080 exampleContainer 1920 1080 100 100 = none :=
  C10_click_noop_few_layouts _ _ _ _ _ _ _ _ _ _ (by decide)

end ShakaMultiLayout
